import Mathlib

/-!
Shallow embedding of the task-state engine of `script.js` (class `TodoApp`):
the task collection, the monotonic id counter, the filter selector, the edit
marker, the validated CRUD operations, and the localStorage (de)serialization
contract.  DOM rendering, modal flow and CSS are out of scope, exactly as the
specification scopes them out.

Conventions of the embedding:
* JavaScript objects parsed from JSON are modelled by the inductive `JValue`.
* Timestamps (`new Date().toISOString()`) are opaque strings threaded in as a
  `now` parameter.
* Methods that mutate `this` become functions `AppState → ... → AppState`.
  Methods that silently do nothing when a task id is absent (the
  `find`/`findIndex` guards) return `Option AppState`, `none` marking the
  not-found branch in which the source performs no mutation and no save.
* Methods that reject input by showing an error message and returning early
  become `Except ValidationError ...`; the three message branches of
  `validateTaskInput` map to `EmptyText`, `TooLong`, `DuplicateText`.
-/

deriving instance DecidableEq for Except

namespace TodoApp

/-- A JSON value, the shape of anything `JSON.parse` can return.  Numbers are
modelled as integers (the ids and counters the program stores are integers;
non-integral and NaN numbers play no role in any claim). -/
inductive JValue : Type where
  | null : JValue
  | bool : Bool → JValue
  | num : Int → JValue
  | str : String → JValue
  | arr : List JValue → JValue
  | obj : List (String × JValue) → JValue
deriving Repr

/-- Property access `v[k]`: defined only on objects, `none` otherwise
(matching `undefined`).  On an object, the first binding of the key wins. -/
def JValue.getField : JValue → String → Option JValue
  | .obj fields, k => fields.lookup k
  | _, _ => none

/-- JavaScript truthiness of a parsed JSON value: `null`, `false`, `0` and
`""` are falsy; every other value (including empty arrays and objects) is
truthy. -/
def jsTruthy : JValue → Bool
  | .null => false
  | .bool b => b
  | .num n => n != 0
  | .str s => s != ""
  | .arr _ => true
  | .obj _ => true

/-- `toLowerCase()` of one character: the ASCII letters `A`–`Z` map to
`a`–`z`.  (Unicode simple case mapping beyond ASCII is immaterial to every
claim and not modelled.) -/
def jsCharLower (c : Char) : Char :=
  if 'A' ≤ c && c ≤ 'Z' then Char.ofNat (c.toNat + 32) else c

/-- `String.prototype.toLowerCase()` over the characters of the string. -/
def jsToLower (s : String) : String := ⟨s.data.map jsCharLower⟩

/-- `String.prototype.trim()`: strips whitespace from both ends. -/
def jsTrim (s : String) : String :=
  ⟨((s.data.dropWhile Char.isWhitespace).reverse.dropWhile Char.isWhitespace).reverse⟩

/-- A task record as created by `addTask`: `{id, text, completed, createdAt,
completedAt, deadline}`.  `createdAt` is optional because hydrated tasks may
lack the field (load-time validation only checks `text` and `id`). -/
structure Task where
  id : Int
  text : String
  completed : Bool
  createdAt : Option String
  completedAt : Option String
  deadline : Option String
deriving Repr, DecidableEq

/-- The application state owned by `TodoApp`: `this.tasks`,
`this.currentFilter`, `this.editingTaskId`, `this.taskIdCounter`. -/
structure AppState where
  tasks : List Task
  currentFilter : String
  editingTaskId : Option Int
  taskIdCounter : Int
deriving Repr, DecidableEq

/-- The constructor state: `tasks = []`, `currentFilter = 'all'`,
`editingTaskId = null`, `taskIdCounter = 0`. -/
def initState : AppState :=
  { tasks := [], currentFilter := "all", editingTaskId := none, taskIdCounter := 0 }

/-- The three rejection branches of `validateTaskInput` / `saveEdit`,
distinguished in the source by the error message shown. -/
inductive ValidationError : Type where
  | EmptyText : ValidationError
  | TooLong : ValidationError
  | DuplicateText : ValidationError
deriving Repr, DecidableEq

/-- `validateTaskInput(text)`: empty text, text longer than 100 characters,
and case-insensitive duplicates are rejected, checked in that order.
`text` is already trimmed by the caller (`addTask` trims before calling). -/
def validateTaskInput (s : AppState) (text : String) : Option ValidationError :=
  if text = "" then some .EmptyText
  else if text.length > 100 then some .TooLong
  else if s.tasks.any (fun t => jsToLower t.text == jsToLower text) then some .DuplicateText
  else none

/-- `addTask()`: trims the input, validates it, and on success allocates
`id = ++taskIdCounter` and appends
`{id, text, completed:false, createdAt:now, completedAt:null,
deadline: deadline || null}`.  The empty string models an empty deadline
input, which `deadline || null` stores as `null`. -/
def addTask (s : AppState) (input deadlineInput now : String) :
    Except ValidationError (AppState × Task) :=
  let text := jsTrim input
  match validateTaskInput s text with
  | some e => .error e
  | none =>
      let task : Task :=
        { id := s.taskIdCounter + 1
          text := text
          completed := false
          createdAt := some now
          completedAt := none
          deadline := if deadlineInput = "" then none else some deadlineInput }
      .ok ({ s with tasks := s.tasks ++ [task], taskIdCounter := s.taskIdCounter + 1 }, task)

/-- Helper for `toggleTask`: flip the first task whose id matches
(`this.tasks.find(t => t.id === taskId)`), setting
`completedAt = completed ? now : null` after the flip;
`none` when no task matches. -/
def toggleFirst (taskId : Int) (now : String) : List Task → Option (List Task)
  | [] => none
  | t :: ts =>
      if t.id == taskId then
        some ({ t with completed := !t.completed
                       completedAt := if t.completed then none else some now } :: ts)
      else (toggleFirst taskId now ts).map (t :: ·)

/-- `toggleTask(taskId)`: flips `completed` of the found task and sets or
clears `completedAt`; does nothing when the id is absent. -/
def toggleTask (s : AppState) (taskId : Int) (now : String) : Option AppState :=
  (toggleFirst taskId now s.tasks).map (fun ts => { s with tasks := ts })

/-- `deleteTask(taskId)`: `findIndex` then `splice(taskIndex, 1)`; the
animation delay around the splice is presentation-only and not modelled.
`none` models the `taskIndex > -1` guard failing, in which the source
performs no removal. -/
def deleteTask (s : AppState) (taskId : Int) : Option AppState :=
  match s.tasks.findIdx? (fun t => t.id == taskId) with
  | none => none
  | some i => some { s with tasks := s.tasks.eraseIdx i }

/-- `editTask(taskId)`: any in-progress edit is abandoned and the marker set
to the new id (the source cancels, then assigns). -/
def editTask (s : AppState) (taskId : Int) : AppState :=
  { s with editingTaskId := some taskId }

/-- `cancelEdit()`: clears the marker unconditionally. -/
def cancelEdit (s : AppState) : AppState :=
  { s with editingTaskId := none }

/-- Helper for `saveEdit`: replace the text of the first task whose id
matches; `none` when absent. -/
def setTextFirst (taskId : Int) (newText : String) : List Task → Option (List Task)
  | [] => none
  | t :: ts =>
      if t.id == taskId then some ({ t with text := newText } :: ts)
      else (setTextFirst taskId newText ts).map (t :: ·)

/-- `saveEdit(taskId)`: same trimming/empty/length rules as `addTask`, with
the duplicate check excluding the task being edited; on success replaces the
text in place and clears the edit marker.  When the validations pass but the
id is absent, the source mutates nothing (and leaves the marker). -/
def saveEdit (s : AppState) (taskId : Int) (input : String) :
    Except ValidationError AppState :=
  let newText := jsTrim input
  if newText = "" then .error .EmptyText
  else if newText.length > 100 then .error .TooLong
  else if s.tasks.any (fun t => t.id != taskId && jsToLower t.text == jsToLower newText) then
    .error .DuplicateText
  else
    match setTextFirst taskId newText s.tasks with
    | some ts => .ok { s with tasks := ts, editingTaskId := none }
    | none => .ok s

/-- `setFilter(filter)`: the source assigns the argument to
`this.currentFilter` unconditionally — there is no validation. -/
def setFilter (s : AppState) (filter : String) : AppState :=
  { s with currentFilter := filter }

/-- `getFilteredTasks()`: `active` keeps `!completed`, `completed` keeps
`completed`, every other filter value falls through to the `default`
branch returning the whole collection. -/
def getFilteredTasks (s : AppState) : List Task :=
  if s.currentFilter = "active" then s.tasks.filter (fun t => !t.completed)
  else if s.currentFilter = "completed" then s.tasks.filter (fun t => t.completed)
  else s.tasks

/-- `clearCompleted()`: keeps only `!completed` tasks. -/
def clearCompleted (s : AppState) : AppState :=
  { s with tasks := s.tasks.filter (fun t => !t.completed) }

/-- `clearAll()`: empties the collection and clears the edit marker;
`taskIdCounter` is untouched. -/
def clearAll (s : AppState) : AppState :=
  { s with tasks := [], editingTaskId := none }

/-! ### Persistence: `saveTasks` / `loadTasks` -/

/-- JSON encoding of an optional string field (`null` when absent).  The
source serializes whatever the field holds; fields produced by the in-scope
operations are strings or `null`. -/
def encodeOptStr : Option String → JValue
  | none => .null
  | some v => .str v

/-- The JSON object `JSON.stringify` produces for one task. -/
def encodeTask (t : Task) : JValue :=
  .obj [("id", .num t.id), ("text", .str t.text), ("completed", .bool t.completed),
        ("createdAt", encodeOptStr t.createdAt), ("completedAt", encodeOptStr t.completedAt),
        ("deadline", encodeOptStr t.deadline)]

/-- `saveTasks()`: the blob written under the `todoApp` key,
`{tasks, taskIdCounter, lastSaved}`. -/
def saveTasks (s : AppState) (now : String) : JValue :=
  .obj [("tasks", .arr (s.tasks.map encodeTask)),
        ("taskIdCounter", .num s.taskIdCounter),
        ("lastSaved", .str now)]

/-- The load-time entry filter
`task && typeof task.text === 'string' && typeof task.id === 'number'`:
an entry is kept exactly when it is truthy, its `text` field is a string and
its `id` field is a number.  No other validation is applied. -/
def isValidEntry (j : JValue) : Bool :=
  jsTruthy j
    && (match j.getField "text" with | some (.str _) => true | _ => false)
    && (match j.getField "id" with | some (.num _) => true | _ => false)

/-- Read an optional string field of a hydrated entry. -/
def decodeOptStrField (j : JValue) (k : String) : Option String :=
  match j.getField k with
  | some (.str v) => some v
  | _ => none

/-- The task record a kept entry denotes.  The source keeps the raw parsed
object; this embedding types it, preserving the behaviour of every in-scope
use site: `completed` is read at truthiness (it only ever feeds boolean
positions and `!`), the timestamp/deadline fields as string-or-absent.  The
`id`/`text` defaults are unreachable on entries passing `isValidEntry`. -/
def decodeTask (j : JValue) : Task :=
  { id := match j.getField "id" with | some (.num n) => n | _ => 0
    text := match j.getField "text" with | some (.str v) => v | _ => ""
    completed := match j.getField "completed" with | some v => jsTruthy v | none => false
    createdAt := decodeOptStrField j "createdAt"
    completedAt := decodeOptStrField j "completedAt"
    deadline := decodeOptStrField j "deadline" }

/-- `loadTasks()`, as the pair (loaded tasks, loaded counter).

The input `none` covers both an absent key and a blob `JSON.parse` rejects:
in the first case the constructor state (`[]`, `0`) is kept, in the second
the `catch` sets exactly those values.

On a parsed `data`:
* `taskIdCounter = data.taskIdCounter || 0` — a numeric field is taken as is
  (`0 || 0` is `0`), anything falsy or absent gives `0`.  (A truthy
  non-numeric counter would be retained untyped by the source; such blobs are
  outside this integer-counter embedding and touched by no claim.)
* `tasks = data.tasks || []`, then the entry filter.  A truthy non-array
  `tasks` field makes `.filter` throw inside the `try`, so the `catch`
  yields (`[]`, `0`); a falsy one yields `[]` with the loaded counter.
  (A parsed top-level `null` also throws at property access, reaching the
  same (`[]`, `0`) result this model gives it.) -/
def loadTasks (blob : Option JValue) : List Task × Int :=
  match blob with
  | none => ([], 0)
  | some data =>
      let counter : Int :=
        match data.getField "taskIdCounter" with
        | some (.num n) => n
        | _ => 0
      match data.getField "tasks" with
      | some (.arr l) => ((l.filter isValidEntry).map decodeTask, counter)
      | some v => if jsTruthy v then ([], 0) else ([], counter)
      | none => ([], counter)

/-- The state `init()` reaches after `loadTasks()`: hydrated tasks and
counter, session-local filter and edit marker at their defaults. -/
def hydrate (blob : Option JValue) : AppState :=
  { tasks := (loadTasks blob).1
    currentFilter := "all"
    editingTaskId := none
    taskIdCounter := (loadTasks blob).2 }

/-! ### Operation traces

A user-visible session is a sequence of store operations.  `applyOp` runs one
operation the way the corresponding event handler does (an operation whose
guard fails leaves the state unchanged) and reports the ids the store issued
during it (`addTask` is the only issuer). -/

/-- One presentation-facing store operation. -/
inductive Op : Type where
  | add (input deadlineInput now : String) : Op
  | toggle (taskId : Int) (now : String) : Op
  | del (taskId : Int) : Op
  | edit (taskId : Int) : Op
  | save (taskId : Int) (input : String) : Op
  | cancel : Op
  | setF (filter : String) : Op
  | clearDone : Op
  | clearEverything : Op
deriving Repr

/-- Run one operation: the successor state and the ids issued by it. -/
def applyOp (s : AppState) : Op → AppState × List Int
  | .add input dl now =>
      match addTask s input dl now with
      | .ok (s', t) => (s', [t.id])
      | .error _ => (s, [])
  | .toggle i now => ((toggleTask s i now).getD s, [])
  | .del i => ((deleteTask s i).getD s, [])
  | .edit i => (editTask s i, [])
  | .save i input =>
      match saveEdit s i input with
      | .ok s' => (s', [])
      | .error _ => (s, [])
  | .cancel => (cancelEdit s, [])
  | .setF f => (setFilter s f, [])
  | .clearDone => (clearCompleted s, [])
  | .clearEverything => (clearAll s, [])

/-- Run a sequence of operations, collecting every id issued along the way. -/
def runOps (s : AppState) : List Op → AppState × List Int
  | [] => (s, [])
  | op :: ops =>
      ((runOps (applyOp s op).1 ops).1,
       (applyOp s op).2 ++ (runOps (applyOp s op).1 ops).2)

/-! ## Theorems -/

/-- **C6.** `getFilteredTasks` returns, in store order, exactly the
`!completed` tasks under `active`, exactly the `completed` tasks under
`completed`, and the whole collection under `all`.  The embedding's
`getFilteredTasks` consumes the state and returns a list, so it cannot
mutate the store: purity holds by construction. -/
theorem getFilteredTasks_spec (s : AppState) :
    getFilteredTasks { s with currentFilter := "active" }
        = s.tasks.filter (fun t => !t.completed) ∧
    getFilteredTasks { s with currentFilter := "completed" }
        = s.tasks.filter (fun t => t.completed) ∧
    getFilteredTasks { s with currentFilter := "all" } = s.tasks := by
  refine ⟨?_, ?_, ?_⟩ <;> simp [getFilteredTasks]

/-- **C2 (counterexample).** The claim says an unrecognized filter value is
rejected and the current filter left unchanged; but `setFilter` performs no
validation, so `"bogus"` replaces the default filter `"all"`. -/
theorem setFilter_rejects_invalid_cex :
    (setFilter initState "bogus").currentFilter = "bogus" ∧
    (setFilter initState "bogus").currentFilter ≠ initState.currentFilter := by
  decide

/-- **C2 (amended).** `setFilter` stores any value unconditionally as the
current filter (no `InvalidFilter` rejection exists); a value outside
{all, active, completed} merely makes `getFilteredTasks` fall through to its
default branch, behaving like `all`. -/
theorem setFilter_amended (s : AppState) (f : String) :
    (setFilter s f).currentFilter = f ∧
    (f ≠ "active" → f ≠ "completed" → getFilteredTasks (setFilter s f) = s.tasks) := by
  refine ⟨rfl, fun h1 h2 => ?_⟩
  simp [setFilter, getFilteredTasks, h1, h2]

/-- Witness for the amended C2 at the concrete unrecognized value `"bogus"`. -/
theorem setFilter_amended_witness :
    (setFilter initState "bogus").currentFilter = "bogus" ∧
    getFilteredTasks (setFilter initState "bogus") = initState.tasks :=
  ⟨(setFilter_amended initState "bogus").1,
   (setFilter_amended initState "bogus").2 (by decide) (by decide)⟩

/-- Decoding inverts encoding on every task record. -/
theorem decodeTask_encodeTask (t : Task) : decodeTask (encodeTask t) = t := by
  cases t with
  | mk id text completed createdAt completedAt deadline =>
      cases createdAt <;> cases completedAt <;> cases deadline <;>
        simp [decodeTask, encodeTask, encodeOptStr, JValue.getField,
              decodeOptStrField, List.lookup, jsTruthy]

/-- Every encoded task passes the load-time entry filter. -/
theorem isValidEntry_encodeTask (t : Task) : isValidEntry (encodeTask t) = true := by
  simp [isValidEntry, encodeTask, JValue.getField, List.lookup, jsTruthy]

/-- **C4.** Round trip: loading a saved blob reproduces the task collection
(same tasks, same order) and the counter.  In this typed embedding every
store state is free of malformed entries, so the claim's proviso is
automatic. -/
theorem loadTasks_saveTasks_roundTrip (s : AppState) (now : String) :
    loadTasks (some (saveTasks s now)) = (s.tasks, s.taskIdCounter) := by
  simp only [loadTasks, saveTasks, JValue.getField, List.lookup]
  norm_num
  rw [List.filter_map]
  simp [Function.comp_def, isValidEntry_encodeTask, decodeTask_encodeTask]

/-- **C7.** `loadTasks` never propagates an error: an absent or non-parseable
blob yields the empty store with counter `0` (the `catch` branch), and in a
parseable blob with a `tasks` array the loaded collection is exactly the
entries passing the `text`-is-string / `id`-is-number filter — malformed
entries are dropped without aborting the rest.  (Totality of `loadTasks` is
the embedding of the surrounding `try`/`catch`: no input produces an
error value.) -/
theorem loadTasks_tolerant :
    loadTasks none = ([], 0) ∧
    ∀ (data : JValue) (l : List JValue), data.getField "tasks" = some (.arr l) →
      (loadTasks (some data)).1 = (l.filter isValidEntry).map decodeTask := by
  refine ⟨rfl, fun data l h => ?_⟩
  simp [loadTasks, h]

/-- A blob whose `tasks` array mixes a `null` entry, an entry with a numeric
`text`, an entry with a string `id`, and one well-formed entry. -/
def malformedBlob : JValue :=
  .obj [("tasks", .arr [.null,
                        .obj [("id", .num 1), ("text", .num 5)],
                        .obj [("id", .str "7"), ("text", .str "bad id")],
                        .obj [("id", .num 7), ("text", .str "ok")]]),
        ("taskIdCounter", .num 7)]

/-- Witness for C7: the three malformed entries of `malformedBlob` are
dropped and the remaining well-formed entry is still loaded. -/
theorem loadTasks_tolerant_witness :
    loadTasks none = ([], 0) ∧
    (loadTasks (some malformedBlob)).1 =
      [{ id := 7, text := "ok", completed := false, createdAt := none,
         completedAt := none, deadline := none }] :=
  ⟨loadTasks_tolerant.1,
   (loadTasks_tolerant.2 malformedBlob
      [.null,
       .obj [("id", .num 1), ("text", .num 5)],
       .obj [("id", .str "7"), ("text", .str "bad id")],
       .obj [("id", .num 7), ("text", .str "ok")]] rfl).trans (by decide)⟩

/-- A 150-character text, longer than any text `validateTaskInput` accepts. -/
def overlongText : String := ⟨List.replicate 150 'x'⟩

/-- A blob whose entries all pass the load-time filter yet violate every
creation-time rule: an empty text, an over-long text, and a case-insensitive
duplicate pair. -/
def invalidStatesBlob : JValue :=
  .obj [("tasks", .arr [.obj [("id", .num 1), ("text", .str "")],
                        .obj [("id", .num 2), ("text", .str overlongText)],
                        .obj [("id", .num 3), ("text", .str "Buy milk")],
                        .obj [("id", .num 4), ("text", .str "buy MILK")]]),
        ("taskIdCounter", .num 9)]

/-- **C10.** The load-time filter keeps exactly the entries whose `text` is a
string and whose `id` is a number, with no other validation: hydrating
`invalidStatesBlob` loads all four entries, producing a store that contains
an empty text, a text longer than 100 characters and two case-insensitively
equal texts on distinct ids — states `create`/`update` reject outright. -/
theorem loadTasks_entry_filter_exact :
    (∀ (l : List JValue) (rest : List (String × JValue)),
        (loadTasks (some (.obj (("tasks", .arr l) :: rest)))).1
          = (l.filter isValidEntry).map decodeTask) ∧
    (hydrate (some invalidStatesBlob)).tasks =
      [{ id := 1, text := "", completed := false, createdAt := none,
         completedAt := none, deadline := none },
       { id := 2, text := overlongText, completed := false, createdAt := none,
         completedAt := none, deadline := none },
       { id := 3, text := "Buy milk", completed := false, createdAt := none,
         completedAt := none, deadline := none },
       { id := 4, text := "buy MILK", completed := false, createdAt := none,
         completedAt := none, deadline := none }] ∧
    (hydrate (some invalidStatesBlob)).taskIdCounter = 9 ∧
    overlongText.length > 100 ∧
    jsToLower "Buy milk" = jsToLower "buy MILK" ∧
    validateTaskInput initState "" = some .EmptyText ∧
    validateTaskInput initState overlongText = some .TooLong := by
  set_option maxRecDepth 10000 in
  refine ⟨fun l rest => ?_, by decide, by decide, by decide, by decide, by decide, by decide⟩
  simp [loadTasks, JValue.getField, List.lookup]

/-- The id the second `create` after hydration would issue; used to exhibit
the collision the stale stored counter causes. -/
def secondCreatedId (blob : JValue) : Option Int :=
  match addTask (hydrate (some blob)) "a" "" "t1" with
  | .ok (s1, _) =>
      match addTask s1 "b" "" "t2" with
      | .ok (_, t) => some t.id
      | .error _ => none
  | .error _ => none

/-- A persisted blob whose stored counter (0) is lower than the largest
loaded task id (2). -/
def staleCounterBlob : JValue :=
  .obj [("tasks", .arr [.obj [("id", .num 2), ("text", .str "restored")]]),
        ("taskIdCounter", .num 0)]

/-- **C1 (code evaluated at the failing input).** `loadTasks` takes the
stored counter as is: on `staleCounterBlob` the effective counter is `0`,
not `max 0 2 = 2` as the claim requires, and the second task created after
hydration receives id `2` — the id of a loaded task.  The spec itself flags
the source behaviour as a latent bug (§9), so the code, not the claim, is in
the wrong. -/
theorem loadTasks_counter_not_reconciled :
    (loadTasks (some staleCounterBlob)).2 = 0 ∧
    (hydrate (some staleCounterBlob)).tasks.map Task.id = [2] ∧
    ((0 : Int) ≠ max 0 2) ∧
    secondCreatedId staleCounterBlob = some 2 ∧
    2 ∈ (hydrate (some staleCounterBlob)).tasks.map Task.id := by
  decide

/-- In a collection with pairwise-distinct ids, erasing at the index
`findIndex` reports for an id removes exactly the task with that id,
leaving no task with it behind. -/
theorem eraseIdx_findIdx?_of_nodup (i : Int) :
    ∀ (l : List Task), (l.map Task.id).Nodup →
      ∀ j, l.findIdx? (fun t => t.id == i) = some j →
        l.eraseIdx j = l.filter (fun t => t.id != i) ∧
        ∀ t ∈ l.eraseIdx j, t.id ≠ i := by
  intro l
  induction l with
  | nil => intro _ j hj; simp at hj
  | cons a l ih =>
      intro hnd j hj
      rw [List.findIdx?_cons] at hj
      simp only [List.map_cons, List.nodup_cons] at hnd
      by_cases ha : a.id = i
      · have hbeq : (a.id == i) = true := by simp [ha]
        rw [hbeq, if_pos rfl] at hj
        have htail : ∀ t ∈ l, t.id ≠ i := by
          intro t ht hti
          exact hnd.1 (List.mem_map.mpr ⟨t, ht, by rw [hti, ha]⟩)
        have hfa : ∀ t ∈ l, (t.id != i) = true := by
          intro t ht; simpa using htail t ht
        cases hj
        refine ⟨?_, by simpa using htail⟩
        simp only [List.eraseIdx_zero, List.filter_cons]
        rw [show (a.id != i) = false by simp [ha], List.filter_eq_self.mpr hfa]
        rfl
      · have hbeq : (a.id == i) = false := by simp [ha]
        rw [hbeq] at hj
        simp only [Bool.false_eq_true, if_false, List.findIdx?_succ] at hj
        obtain ⟨j', hj', rfl⟩ := Option.map_eq_some'.mp hj
        obtain ⟨heq, hall⟩ := ih hnd.2 j' hj'
        refine ⟨?_, ?_⟩
        · rw [List.eraseIdx_cons_succ, heq, List.filter_cons,
              show (a.id != i) = true by simp [ha], if_pos rfl]
        · intro t ht
          rw [List.eraseIdx_cons_succ] at ht
          rcases List.mem_cons.mp ht with rfl | ht
          · exact ha
          · exact hall t ht

/-- **C3.** In a store with pairwise-distinct ids, `deleteTask` reports
not-found (the `findIndex` guard failing, under which the source performs no
removal) exactly when no task has the id; on success it removes exactly the
task with that id, leaving the remaining tasks in their original relative
order and the rest of the state untouched, and a second delete of the same
id then reports not-found. -/
theorem deleteTask_spec (s : AppState) (i : Int)
    (hnodup : (s.tasks.map Task.id).Nodup) :
    (deleteTask s i = none ↔ ∀ t ∈ s.tasks, t.id ≠ i) ∧
    ∀ s', deleteTask s i = some s' →
      s'.tasks = s.tasks.filter (fun t => t.id != i) ∧
      s'.currentFilter = s.currentFilter ∧
      s'.editingTaskId = s.editingTaskId ∧
      s'.taskIdCounter = s.taskIdCounter ∧
      deleteTask s' i = none := by
  have hnone : ∀ (u : AppState), (deleteTask u i = none ↔
      u.tasks.findIdx? (fun t => t.id == i) = none) := by
    intro u
    unfold deleteTask
    cases h : u.tasks.findIdx? (fun t => t.id == i) <;> simp [h]
  constructor
  · rw [hnone s, List.findIdx?_eq_none_iff]
    simp
  · intro s' hs'
    unfold deleteTask at hs'
    cases h : s.tasks.findIdx? (fun t => t.id == i) with
    | none => rw [h] at hs'; exact absurd hs' (by simp)
    | some j =>
        rw [h] at hs'
        obtain ⟨heq, hall⟩ := eraseIdx_findIdx?_of_nodup i s.tasks hnodup j h
        cases Option.some.inj hs'
        refine ⟨heq, rfl, rfl, rfl, ?_⟩
        rw [hnone, List.findIdx?_eq_none_iff]
        intro t ht
        simpa using hall t ht

/-- A concrete two-task store with distinct ids. -/
def twoTaskState : AppState :=
  { tasks := [{ id := 1, text := "a", completed := false, createdAt := some "t1",
                completedAt := none, deadline := none },
              { id := 2, text := "b", completed := true, createdAt := some "t2",
                completedAt := some "t3", deadline := none }],
    currentFilter := "all", editingTaskId := none, taskIdCounter := 2 }

/-- Witness for C3 at the concrete store `twoTaskState` and id 1. -/
theorem deleteTask_spec_witness :
    (deleteTask twoTaskState 1 = none ↔ ∀ t ∈ twoTaskState.tasks, t.id ≠ 1) ∧
    ∀ s', deleteTask twoTaskState 1 = some s' →
      s'.tasks = twoTaskState.tasks.filter (fun t => t.id != 1) ∧
      s'.currentFilter = twoTaskState.currentFilter ∧
      s'.editingTaskId = twoTaskState.editingTaskId ∧
      s'.taskIdCounter = twoTaskState.taskIdCounter ∧
      deleteTask s' 1 = none :=
  deleteTask_spec twoTaskState 1 (by decide)

/-- **C5.** `addTask` on trimmed text: empty text fails `EmptyText`, text
longer than 100 characters fails `TooLong`, text case-insensitively equal to
an existing task's text fails `DuplicateText` (checked in that order);
otherwise it succeeds, appending a task with `id = ++taskIdCounter`,
`completed = false`, `completedAt` absent, `createdAt = now` and the given
deadline when non-empty — and whenever every existing id is at most the
counter, the fresh id differs from every existing id. -/
theorem addTask_spec (s : AppState) (input deadlineInput now : String) :
    (jsTrim input = "" → addTask s input deadlineInput now = .error .EmptyText) ∧
    (jsTrim input ≠ "" → (jsTrim input).length > 100 →
        addTask s input deadlineInput now = .error .TooLong) ∧
    (jsTrim input ≠ "" → (jsTrim input).length ≤ 100 →
        (∃ t ∈ s.tasks, jsToLower t.text = jsToLower (jsTrim input)) →
        addTask s input deadlineInput now = .error .DuplicateText) ∧
    (jsTrim input ≠ "" → (jsTrim input).length ≤ 100 →
        (∀ t ∈ s.tasks, jsToLower t.text ≠ jsToLower (jsTrim input)) →
        (addTask s input deadlineInput now =
            .ok ({ s with
                     tasks := s.tasks ++
                       [{ id := s.taskIdCounter + 1, text := jsTrim input,
                          completed := false, createdAt := some now,
                          completedAt := none,
                          deadline := if deadlineInput = "" then none
                                      else some deadlineInput }],
                     taskIdCounter := s.taskIdCounter + 1 },
                 { id := s.taskIdCounter + 1, text := jsTrim input,
                   completed := false, createdAt := some now, completedAt := none,
                   deadline := if deadlineInput = "" then none
                               else some deadlineInput }) ∧
         ((∀ t ∈ s.tasks, t.id ≤ s.taskIdCounter) →
             ∀ t ∈ s.tasks, t.id ≠ s.taskIdCounter + 1))) := by
  refine ⟨fun h => ?_, fun h1 h2 => ?_, fun h1 h2 h3 => ?_, fun h1 h2 h3 => ⟨?_, ?_⟩⟩
  · simp [addTask, validateTaskInput, h]
  · simp [addTask, validateTaskInput, h1, h2]
  · have hany : s.tasks.any (fun t => jsToLower t.text == jsToLower (jsTrim input)) = true := by
      obtain ⟨t, ht, hte⟩ := h3
      exact List.any_eq_true.mpr ⟨t, ht, by simp [hte]⟩
    simp [addTask, validateTaskInput, h1, Nat.not_lt.mpr h2, hany]
  · have hany : s.tasks.any (fun t => jsToLower t.text == jsToLower (jsTrim input)) = false := by
      rw [List.any_eq_false]
      intro t ht
      simpa using h3 t ht
    simp [addTask, validateTaskInput, h1, Nat.not_lt.mpr h2, hany]
  · intro hle t ht hcontra
    have := hle t ht
    omega

/-- Witness for C5 at the concrete input `"  hi  "` (trimming applies) with
a deadline, on the empty store. -/
theorem addTask_spec_witness :
    jsTrim "  hi  " ≠ "" ∧ (jsTrim "  hi  ").length ≤ 100 ∧
    ((addTask initState "  hi  " "2030-01-01" "t0" =
        .ok ({ initState with
                 tasks := initState.tasks ++
                   [{ id := initState.taskIdCounter + 1, text := jsTrim "  hi  ",
                      completed := false, createdAt := some "t0",
                      completedAt := none,
                      deadline := if ("2030-01-01" : String) = "" then none
                                  else some "2030-01-01" }],
                 taskIdCounter := initState.taskIdCounter + 1 },
             { id := initState.taskIdCounter + 1, text := jsTrim "  hi  ",
               completed := false, createdAt := some "t0", completedAt := none,
               deadline := if ("2030-01-01" : String) = "" then none
                           else some "2030-01-01" }) ∧
     ((∀ t ∈ initState.tasks, t.id ≤ initState.taskIdCounter) →
         ∀ t ∈ initState.tasks, t.id ≠ initState.taskIdCounter + 1))) :=
  ⟨by decide, by decide,
   (addTask_spec initState "  hi  " "2030-01-01" "t0").2.2.2
     (by decide) (by decide) (by decide)⟩

/-- Toggling rewrites the first task whose id matches — flipping `completed`
and setting `completedAt` to `now` when it becomes true, to absent when it
becomes false — leaving every other task untouched. -/
theorem toggleFirst_append (i : Int) (now : String) :
    ∀ (l1 : List Task) (t : Task) (l2 : List Task),
      (∀ u ∈ l1, u.id ≠ i) → t.id = i →
      toggleFirst i now (l1 ++ t :: l2) =
        some (l1 ++ ({ t with completed := !t.completed,
                              completedAt := if t.completed then none
                                             else some now } :: l2)) := by
  intro l1
  induction l1 with
  | nil =>
      intro t l2 _ ht
      simp [toggleFirst, ht]
  | cons u l1 ih =>
      intro t l2 hu ht
      have hne : (u.id == i) = false := by simp [hu u (List.mem_cons_self u l1)]
      simp only [List.cons_append, toggleFirst, hne, Bool.false_eq_true, if_false,
                 List.append_eq]
      rw [ih t l2 (fun v hv => hu v (List.mem_cons_of_mem u hv)) ht]
      rfl

/-- A one-task store whose task is already completed. -/
def completedTaskState : AppState :=
  { tasks := [{ id := 1, text := "a", completed := true, createdAt := some "t0",
                completedAt := some "t0", deadline := none }],
    currentFilter := "all", editingTaskId := none, taskIdCounter := 1 }

/-- **C8 (counterexample).** Toggling a task that starts out completed twice
restores `completed = true` but sets `completedAt` to the time of the second
toggle — it is present, not absent as the claim states. -/
theorem toggleTask_twice_cex :
    (toggleTask completedTaskState 1 "t1").bind (fun s1 => toggleTask s1 1 "t2") =
      some { tasks := [{ id := 1, text := "a", completed := true,
                         createdAt := some "t0", completedAt := some "t2",
                         deadline := none }],
             currentFilter := "all", editingTaskId := none, taskIdCounter := 1 } ∧
    (some "t2" : Option String) ≠ none := by
  decide

/-- **C8 (amended).** For every task present in the store (the first with its
id, unique when ids are distinct), toggling twice restores the original
`completed` value; `completedAt` is absent afterwards when the task was
originally not completed, and is the time of the second toggle when it was. -/
theorem toggleTask_twice_amended (s : AppState) (i : Int) (now1 now2 : String)
    (l1 : List Task) (t : Task) (l2 : List Task)
    (hs : s.tasks = l1 ++ t :: l2) (hl1 : ∀ u ∈ l1, u.id ≠ i) (ht : t.id = i) :
    ∃ s1 s2, toggleTask s i now1 = some s1 ∧ toggleTask s1 i now2 = some s2 ∧
      s2.tasks = l1 ++ ({ t with completedAt := if t.completed then some now2
                                                else none } :: l2) ∧
      s2.currentFilter = s.currentFilter ∧
      s2.editingTaskId = s.editingTaskId ∧
      s2.taskIdCounter = s.taskIdCounter := by
  have h1 := toggleFirst_append i now1 l1 t l2 hl1 ht
  have h2 := toggleFirst_append i now2 l1
      { t with completed := !t.completed,
               completedAt := if t.completed then none else some now1 } l2 hl1 ht
  refine ⟨{ s with tasks := l1 ++
              ({ t with completed := !t.completed,
                        completedAt := if t.completed then none
                                       else some now1 } :: l2) },
          { s with tasks := l1 ++
              ({ t with completed := !(!t.completed),
                        completedAt := if !t.completed then none
                                       else some now2 } :: l2) },
          ?_, ?_, ?_, rfl, rfl, rfl⟩
  · simp [toggleTask, hs, h1]
  · simp [toggleTask, h2]
  · cases hc : t.completed <;> simp [hc]

/-- A one-task store whose task is not completed. -/
def activeTaskState : AppState :=
  { tasks := [{ id := 1, text := "a", completed := false, createdAt := some "t0",
                completedAt := none, deadline := none }],
    currentFilter := "all", editingTaskId := none, taskIdCounter := 1 }

/-- Witness for the amended C8: double-toggling the initially-active task of
`activeTaskState` restores `completed = false` with `completedAt` absent. -/
theorem toggleTask_twice_amended_witness :
    ∃ s1 s2, toggleTask activeTaskState 1 "t1" = some s1 ∧
      toggleTask s1 1 "t2" = some s2 ∧
      s2.tasks = [] ++
        ({ ({ id := 1, text := "a", completed := false, createdAt := some "t0",
              completedAt := none, deadline := none } : Task) with
            completedAt := if false = true then some "t2" else none } :: []) ∧
      s2.currentFilter = activeTaskState.currentFilter ∧
      s2.editingTaskId = activeTaskState.editingTaskId ∧
      s2.taskIdCounter = activeTaskState.taskIdCounter :=
  toggleTask_twice_amended activeTaskState 1 "t1" "t2" []
    { id := 1, text := "a", completed := false, createdAt := some "t0",
      completedAt := none, deadline := none } []
    (by decide) (by decide) (by decide)

/-- On success `addTask` increments the counter by one and the created task
carries exactly that id. -/
theorem addTask_ok (s : AppState) (input dl now : String) (s' : AppState) (t : Task)
    (h : addTask s input dl now = .ok (s', t)) :
    s'.taskIdCounter = s.taskIdCounter + 1 ∧ t.id = s.taskIdCounter + 1 := by
  simp only [addTask] at h
  cases hv : validateTaskInput s (jsTrim input) with
  | some e => rw [hv] at h; exact absurd h (by simp)
  | none =>
      rw [hv] at h
      simp only [Except.ok.injEq, Prod.mk.injEq] at h
      exact ⟨by rw [← h.1], by rw [← h.2]⟩

/-- `toggleTask` never changes the counter. -/
theorem toggleTask_counter (s : AppState) (i : Int) (now : String) (s' : AppState)
    (h : toggleTask s i now = some s') : s'.taskIdCounter = s.taskIdCounter := by
  unfold toggleTask at h
  cases hf : toggleFirst i now s.tasks with
  | none => rw [hf] at h; exact absurd h (by simp)
  | some ts =>
      rw [hf] at h
      simp only [Option.map_some', Option.some.injEq] at h
      rw [← h]

/-- `deleteTask` never changes the counter. -/
theorem deleteTask_counter (s : AppState) (i : Int) (s' : AppState)
    (h : deleteTask s i = some s') : s'.taskIdCounter = s.taskIdCounter := by
  unfold deleteTask at h
  cases hf : s.tasks.findIdx? (fun t => t.id == i) with
  | none => rw [hf] at h; exact absurd h (by simp)
  | some j =>
      rw [hf] at h
      rw [← Option.some.inj h]

/-- `saveEdit` never changes the counter. -/
theorem saveEdit_counter (s : AppState) (i : Int) (input : String) (s' : AppState)
    (h : saveEdit s i input = .ok s') : s'.taskIdCounter = s.taskIdCounter := by
  simp only [saveEdit] at h
  split at h
  · exact absurd h (by simp)
  · split at h
    · exact absurd h (by simp)
    · split at h
      · exact absurd h (by simp)
      · split at h
        · rw [← Except.ok.inj h]
        · rw [← Except.ok.inj h]

/-- No single operation decreases the id counter. -/
theorem applyOp_counter_mono (s : AppState) (op : Op) :
    s.taskIdCounter ≤ (applyOp s op).1.taskIdCounter := by
  cases op with
  | add input dl now =>
      simp only [applyOp]
      cases h : addTask s input dl now with
      | error e => exact le_refl _
      | ok p =>
          obtain ⟨s', t⟩ := p
          have hc := (addTask_ok s input dl now s' t h).1
          show s.taskIdCounter ≤ s'.taskIdCounter
          omega
  | toggle i now =>
      simp only [applyOp]
      cases h : toggleTask s i now with
      | none => exact le_refl _
      | some s' =>
          show s.taskIdCounter ≤ s'.taskIdCounter
          exact le_of_eq (toggleTask_counter s i now s' h).symm
  | del i =>
      simp only [applyOp]
      cases h : deleteTask s i with
      | none => exact le_refl _
      | some s' =>
          show s.taskIdCounter ≤ s'.taskIdCounter
          exact le_of_eq (deleteTask_counter s i s' h).symm
  | edit i => exact le_refl _
  | save i input =>
      simp only [applyOp]
      cases h : saveEdit s i input with
      | error e => exact le_refl _
      | ok s' =>
          show s.taskIdCounter ≤ s'.taskIdCounter
          exact le_of_eq (saveEdit_counter s i input s' h).symm
  | cancel => exact le_refl _
  | setF f => exact le_refl _
  | clearDone => exact le_refl _
  | clearEverything => exact le_refl _

/-- Every id an operation issues is at most the counter it leaves behind. -/
theorem applyOp_issued_le (s : AppState) (op : Op) :
    ∀ i ∈ (applyOp s op).2, i ≤ (applyOp s op).1.taskIdCounter := by
  cases op with
  | add input dl now =>
      simp only [applyOp]
      cases h : addTask s input dl now with
      | error e =>
          intro x hx
          exact absurd (show x ∈ ([] : List Int) from hx) (by simp)
      | ok p =>
          obtain ⟨s', t⟩ := p
          obtain ⟨hc, hid⟩ := addTask_ok s input dl now s' t h
          intro x hx
          have hx' : x ∈ [t.id] := hx
          simp only [List.mem_singleton] at hx'
          subst hx'
          show t.id ≤ s'.taskIdCounter
          omega
  | toggle i now =>
      intro x hx
      exact absurd (show x ∈ ([] : List Int) from hx) (by simp)
  | del i =>
      intro x hx
      exact absurd (show x ∈ ([] : List Int) from hx) (by simp)
  | edit i =>
      intro x hx
      exact absurd (show x ∈ ([] : List Int) from hx) (by simp)
  | save i input =>
      simp only [applyOp]
      cases h : saveEdit s i input with
      | error e =>
          intro x hx
          exact absurd (show x ∈ ([] : List Int) from hx) (by simp)
      | ok s' =>
          intro x hx
          exact absurd (show x ∈ ([] : List Int) from hx) (by simp)
  | cancel =>
      intro x hx
      exact absurd (show x ∈ ([] : List Int) from hx) (by simp)
  | setF f =>
      intro x hx
      exact absurd (show x ∈ ([] : List Int) from hx) (by simp)
  | clearDone =>
      intro x hx
      exact absurd (show x ∈ ([] : List Int) from hx) (by simp)
  | clearEverything =>
      intro x hx
      exact absurd (show x ∈ ([] : List Int) from hx) (by simp)

/-- The counter never decreases along a run. -/
theorem runOps_counter_mono : ∀ (ops : List Op) (s : AppState),
    s.taskIdCounter ≤ (runOps s ops).1.taskIdCounter
  | [], _ => le_refl _
  | op :: ops, s =>
      le_trans (applyOp_counter_mono s op)
        (runOps_counter_mono ops (applyOp s op).1)

/-- Every id issued along a run is at most the final counter. -/
theorem runOps_issued_le : ∀ (ops : List Op) (s : AppState),
    ∀ i ∈ (runOps s ops).2, i ≤ (runOps s ops).1.taskIdCounter := by
  intro ops
  induction ops with
  | nil => intro s i hi; simp [runOps] at hi
  | cons op ops ih =>
      intro s i hi
      simp only [runOps, List.mem_append] at hi
      rcases hi with hi | hi
      · exact le_trans (applyOp_issued_le s op i hi)
          (runOps_counter_mono ops (applyOp s op).1)
      · exact ih (applyOp s op).1 i hi

/-- **C9.** After any sequence of operations, `clearAll` empties the task
collection and clears the edit marker while leaving the counter untouched,
so a subsequent successful `create` issues an id strictly greater than every
id the store issued during the whole run. -/
theorem clearAll_then_create_fresh (s0 : AppState) (ops : List Op)
    (input dl now : String) (s2 : AppState) (t : Task)
    (h : addTask (clearAll (runOps s0 ops).1) input dl now = .ok (s2, t)) :
    (clearAll (runOps s0 ops).1).tasks = [] ∧
    (clearAll (runOps s0 ops).1).editingTaskId = none ∧
    (clearAll (runOps s0 ops).1).taskIdCounter = (runOps s0 ops).1.taskIdCounter ∧
    ∀ i ∈ (runOps s0 ops).2, i < t.id := by
  refine ⟨rfl, rfl, rfl, fun i hi => ?_⟩
  have hid := (addTask_ok _ input dl now s2 t h).2
  have hc : (clearAll (runOps s0 ops).1).taskIdCounter
      = (runOps s0 ops).1.taskIdCounter := rfl
  have hle := runOps_issued_le ops s0 i hi
  omega

/-- Witness for C9: create one task (id 1), `clearAll`, then create again —
the new id 2 is strictly greater than the previously issued id 1. -/
theorem clearAll_then_create_fresh_witness :
    (clearAll (runOps initState [Op.add "a" "" "t0"]).1).tasks = [] ∧
    (clearAll (runOps initState [Op.add "a" "" "t0"]).1).editingTaskId = none ∧
    (clearAll (runOps initState [Op.add "a" "" "t0"]).1).taskIdCounter
      = (runOps initState [Op.add "a" "" "t0"]).1.taskIdCounter ∧
    ∀ i ∈ (runOps initState [Op.add "a" "" "t0"]).2,
      i < ({ id := 2, text := "b", completed := false, createdAt := some "t1",
             completedAt := none, deadline := none } : Task).id :=
  clearAll_then_create_fresh initState [Op.add "a" "" "t0"] "b" "" "t1"
    { tasks := [{ id := 2, text := "b", completed := false, createdAt := some "t1",
                  completedAt := none, deadline := none }],
      currentFilter := "all", editingTaskId := none, taskIdCounter := 2 }
    { id := 2, text := "b", completed := false, createdAt := some "t1",
      completedAt := none, deadline := none }
    (by decide)

end TodoApp
